import Mathlib

/-!
Verification of the serial-arm controller in `kuka_control.js`
(class `KukaController` plus the page-level helper `resetAllServos`).

The controller state and every operation the claims touch are embedded as
executable Lean definitions.  External effects (the Web Serial transport,
DOM widgets, timers) are passed in explicitly:

* a transport handle (`this.port`) is an `Option Nat`;
* the outcome of `navigator.serial.requestPort()` / `port.open()` is a
  `ConnectAttempt` argument;
* whether `writer.write(...)` throws is a `writeOk : Bool` argument;
* the `setTimeout` callback that clears the `_sending` flag 300 ms after a
  send is the separate transition `sendCooldownExpire`;
* `alert(...)` calls and spawned read loops are reported in outcome records.

DOM-only statements (innerHTML updates, button enabling, log scrolling) have
no state effect and are not modelled.
-/

/-- Controller state: the fields of `KukaController` set in its constructor,
plus the `_sending` busy flag used by `executePosition` (absent, i.e. falsy,
until the first send). -/
structure KukaController where
  numServos : Nat
  port : Option Nat
  connected : Bool
  servoAngles : List Int
  lastCommand : String
  sending : Bool
  deriving Repr, DecidableEq

/-- Constructor `new KukaController(numServos)`: `port = null`, `connected = false`,
`servoAngles = Array(numServos).fill(90)`, `lastCommand = 'None'`. -/
def initState (numServos : Nat) : KukaController :=
  { numServos := numServos
    port := none
    connected := false
    servoAngles := List.replicate numServos 90
    lastCommand := "None"
    sending := false }

/-- ASCII whitespace, as stripped by JavaScript `String.prototype.trim`. -/
def isWs (c : Char) : Bool :=
  c = ' ' || c = '\t' || c = '\n' || c = '\r'

/-- JavaScript `s.trim()`: strip whitespace from both ends. -/
def jsTrim (s : String) : String :=
  String.mk (((s.data.dropWhile isWs).reverse.dropWhile isWs).reverse)

/-- One fragment of the command built by `executePosition`:
`` `S${i+1} ${this.servoAngles[i]}` `` (the out-of-bounds default `0` is
never used when the angle vector has `numServos` entries). -/
def servoPart (servoAngles : List Int) (i : Nat) : String :=
  "S" ++ toString (i + 1) ++ " " ++ toString (servoAngles.getD i 0)

/-- The command-building loop of `executePosition`:
`for i in 0..numServos-1: command += part; if i < numServos-1: command += ','`. -/
def commandBody (numServos : Nat) (servoAngles : List Int) : String :=
  (List.range numServos).foldl
    (fun cmd i =>
      cmd ++ servoPart servoAngles i ++ if i < numServos - 1 then "," else "")
    ""

/-- The full encoded command: loop result plus `command += '\n'`. -/
def encodeCommand (numServos : Nat) (servoAngles : List Int) : String :=
  commandBody numServos servoAngles ++ "\n"

/-- Comma join following the spec's words: comma-separated, no trailing
comma.  Used only to compare against the code's `commandBody`. -/
def commaJoin : List String → String
  | [] => ""
  | [p] => p
  | p :: q :: rest => p ++ "," ++ commaJoin (q :: rest)

/-- The spec's command fragments `S<k> <a>` for a one-based joint index `k`.
Used only to compare against the code's encoder. -/
def specCommandParts : Nat → List Int → List String
  | _, [] => []
  | k, a :: rest => ("S" ++ toString k ++ " " ++ toString a) :: specCommandParts (k + 1) rest

/-- The spec's encoder shape `S1 a1,S2 a2,...,SN aN\n`. -/
def specEncode (angles : List Int) : String :=
  commaJoin (specCommandParts 1 angles) ++ "\n"

/-- Variant of the command loop that appends a comma after every part
(the comma condition `i < numServos - 1` specialised to always-true). -/
def allCommaBody (servoAngles : List Int) (n : Nat) : String :=
  (List.range n).foldl (fun cmd i => cmd ++ servoPart servoAngles i ++ ",") ""

theorem foldl_append_factor (h : Nat → String) (l : List Nat) :
    ∀ acc : String, l.foldl (fun cmd i => cmd ++ h i) acc
      = acc ++ l.foldl (fun cmd i => cmd ++ h i) "" := by
  induction l with
  | nil =>
    intro acc
    simp [String.append_empty]
  | cons x xs ih =>
    intro acc
    rw [List.foldl_cons, List.foldl_cons, ih ("" ++ h x), ih (acc ++ h x),
      String.append_assoc, String.empty_append]

theorem allCommaBody_succ (a : List Int) (n : Nat) :
    allCommaBody a (n + 1) = allCommaBody a n ++ (servoPart a n ++ ",") := by
  unfold allCommaBody
  rw [List.range_succ, List.foldl_append, List.foldl_cons, List.foldl_nil,
    String.append_assoc]

/-- The command loop for `n + 1` servos: all but the last part get commas,
the last gets none. -/
theorem commandBody_succ (a : List Int) (n : Nat) :
    commandBody (n + 1) a = allCommaBody a n ++ servoPart a n := by
  unfold commandBody
  rw [List.range_succ, List.foldl_append, List.foldl_cons, List.foldl_nil]
  have hbody : (List.range n).foldl
      (fun cmd i => cmd ++ servoPart a i ++ if i < n + 1 - 1 then "," else "") ""
      = allCommaBody a n := by
    unfold allCommaBody
    apply List.foldl_ext
    intro acc b hb
    have hbn : b < n := List.mem_range.mp hb
    simp [hbn]
  rw [hbody]
  simp

theorem allCommaBody_zero (a : List Int) : allCommaBody a 0 = "" := rfl

theorem specCommandParts_concat (a : List Int) :
    ∀ (k : Nat) (x : Int), specCommandParts k (a ++ [x])
      = specCommandParts k a ++ ["S" ++ toString (k + a.length) ++ " " ++ toString x] := by
  induction a with
  | nil =>
    intro k x
    simp [specCommandParts]
  | cons y ys ih =>
    intro k x
    have e1 : specCommandParts k ((y :: ys) ++ [x])
        = ("S" ++ toString k ++ " " ++ toString y) :: specCommandParts (k + 1) (ys ++ [x]) := rfl
    have e2 : specCommandParts k (y :: ys)
        = ("S" ++ toString k ++ " " ++ toString y) :: specCommandParts (k + 1) ys := rfl
    have h2 : k + 1 + ys.length = k + (y :: ys).length := by
      rw [List.length_cons]
      omega
    rw [e1, ih (k + 1) x, e2, List.cons_append, h2]

theorem commaJoin_concat (ps : List String) (p : String) (h : ps ≠ []) :
    commaJoin (ps ++ [p]) = commaJoin ps ++ "," ++ p := by
  induction ps with
  | nil => exact absurd rfl h
  | cons q qs ih =>
    cases qs with
    | nil => simp [commaJoin]
    | cons r rs =>
      have hne : r :: rs ≠ [] := by simp
      have e1 : commaJoin ((q :: r :: rs) ++ [p])
          = q ++ "," ++ commaJoin ((r :: rs) ++ [p]) := rfl
      rw [e1, ih hne]
      simp [commaJoin, String.append_assoc]

theorem servoPart_concat_lt (a : List Int) (x : Int) (i : Nat) (h : i < a.length) :
    servoPart (a ++ [x]) i = servoPart a i := by
  unfold servoPart
  rw [List.getD_append _ _ _ _ h]

theorem servoPart_concat_last (a : List Int) (x : Int) :
    servoPart (a ++ [x]) a.length = "S" ++ toString (a.length + 1) ++ " " ++ toString x := by
  unfold servoPart
  rw [List.getD_eq_getElem?_getD, List.getElem?_concat_length]
  rfl

theorem allCommaBody_congr (a b : List Int) (n : Nat)
    (h : ∀ i < n, servoPart b i = servoPart a i) :
    allCommaBody b n = allCommaBody a n := by
  unfold allCommaBody
  apply List.foldl_ext
  intro acc i hi
  rw [h i (List.mem_range.mp hi)]

theorem allCommaBody_eq_commandBody (a : List Int) (n : Nat) (h : 1 ≤ n) :
    allCommaBody a n = commandBody n a ++ "," := by
  cases n with
  | zero => omega
  | succ m =>
    rw [allCommaBody_succ, commandBody_succ, String.append_assoc]

theorem specCommandParts_ne_nil (k : Nat) (y : Int) (ys : List Int) :
    specCommandParts k (y :: ys) ≠ [] := by
  simp [specCommandParts]

/-- The command-building loop of `executePosition` produces exactly the
comma-join of the spec's `S<k> <a>` fragments. -/
theorem commandBody_eq_commaJoin (a : List Int) :
    commandBody a.length a = commaJoin (specCommandParts 1 a) := by
  induction a using List.reverseRecOn with
  | nil => rfl
  | append_singleton as x ih =>
    have hlen : (as ++ [x]).length = as.length + 1 := by simp
    rw [hlen, commandBody_succ, servoPart_concat_last,
      allCommaBody_congr as (as ++ [x]) as.length
        (fun i hi => servoPart_concat_lt as x i hi),
      specCommandParts_concat as 1 x, Nat.add_comm 1 as.length]
    cases as with
    | nil =>
      simp [allCommaBody_zero, commaJoin, specCommandParts, String.empty_append]
    | cons y ys =>
      rw [commaJoin_concat _ _ (specCommandParts_ne_nil 1 y ys),
        allCommaBody_eq_commandBody _ _ (by simp), ih]


/-- Handler `updateFromSlider(servoNum)`: reads `parseInt(slider.value)` and stores it
at `servoAngles[servoNum - 1]` unconditionally (no range check in the code;
the slider DOM element carries `min="0" max="180"`). -/
def updateFromSlider (s : KukaController) (servoNum : Nat) (angle : Int) :
    KukaController :=
  { s with servoAngles := s.servoAngles.set (servoNum - 1) angle }

/-- Handler `updateFromInput(servoNum)`: reads `parseInt(input.value)`; only when
`angle >= 0 && angle <= 180` stores it at `servoAngles[servoNum - 1]`.
The returned `Bool` records whether the guarded branch ran. -/
def updateFromInput (s : KukaController) (servoNum : Nat) (angle : Int) :
    KukaController × Bool :=
  if 0 ≤ angle ∧ angle ≤ 180 then
    ({ s with servoAngles := s.servoAngles.set (servoNum - 1) angle }, true)
  else
    (s, false)

/-- Observable outcome of one `executePosition()` call. -/
inductive SendResult where
  /-- rejected by `if (!this.connected || !this.port) return` -/
  | notConnected
  /-- rejected by `if (this._sending) return` -/
  | busy
  /-- write resolved (`writer.write(...)`); the payload is the written command -/
  | sent (bytes : String)
  /-- write threw (`writer.write(...)`); the error is alerted, not rethrown -/
  | writeFailed
  deriving Repr, DecidableEq

/-- Method `executePosition()`.  `writeOk` says whether `writer.write` resolves.
The `finally` block schedules `_sending = false` 300 ms later; that timer
callback is the separate transition `sendCooldownExpire`, so immediately
after this call `sending` is still `true`. -/
def executePosition (s : KukaController) (writeOk : Bool) :
    KukaController × SendResult :=
  if !s.connected || s.port.isNone then
    (s, SendResult.notConnected)
  else if s.sending then
    (s, SendResult.busy)
  else
    let command := encodeCommand s.numServos s.servoAngles
    if writeOk then
      ({ s with sending := true, lastCommand := jsTrim command },
        SendResult.sent command)
    else
      ({ s with sending := true }, SendResult.writeFailed)

/-- The `setTimeout(..., 300)` callback from `executePosition`'s `finally`:
`this._sending = false` once the cool-down elapses. -/
def sendCooldownExpire (s : KukaController) : KukaController :=
  { s with sending := false }

/-- Environment outcome of `navigator.serial.requestPort()` + `port.open()`
during `connect()`. -/
inductive ConnectAttempt where
  /-- request threw (`requestPort()`: permission denied / no device selected) -/
  | requestFailed
  /-- open threw: `requestPort()` returned `handle`, then `open({baudRate: 9600})` threw -/
  | openFailed (handle : Nat)
  /-- both resolved -/
  | opened (handle : Nat)
  deriving Repr, DecidableEq

/-- Observable outcome of one `connect()` call. -/
structure ConnectOutcome where
  /-- number of `alert(...)` error surfacings -/
  alerts : Nat
  /-- whether `startReading()` was invoked -/
  readLoopStarted : Bool
  deriving Repr, DecidableEq

/-- Method `connect()`.  Note `this.port = await requestPort()` is assigned before
`open` is awaited, so when `open` throws, the handle stays in `this.port`;
the `catch` block only alerts. -/
def connect (s : KukaController) (attempt : ConnectAttempt) :
    KukaController × ConnectOutcome :=
  match attempt with
  | ConnectAttempt.requestFailed =>
      (s, { alerts := 1, readLoopStarted := false })
  | ConnectAttempt.openFailed h =>
      ({ s with port := some h }, { alerts := 1, readLoopStarted := false })
  | ConnectAttempt.opened h =>
      ({ s with port := some h, connected := true, lastCommand := "Connected" },
        { alerts := 1 - 1, readLoopStarted := true })

/-- Method `disconnect()`.  `cancelErr`/`closeErr` say whether `reader.cancel()` or
`port.close()` throw; every teardown statement is wrapped in
`try { ... } catch (e) {}`, so the resulting state does not depend on them
and the call never throws.  The trailing statements run unconditionally. -/
def disconnect (s : KukaController) (cancelErr closeErr : Bool) :
    KukaController :=
  { s with port := none, connected := false, lastCommand := "Disconnected" }

/-- Which branch `toggleConnection()` took. -/
inductive ToggleAction where
  | didConnect
  | didDisconnect
  deriving Repr, DecidableEq

/-- Method `toggleConnection()`: `if (!this.connected) await this.connect(); else
this.disconnect()`. -/
def toggleConnection (s : KukaController) (attempt : ConnectAttempt)
    (cancelErr closeErr : Bool) : KukaController × ToggleAction :=
  if !s.connected then
    ((connect s attempt).1, ToggleAction.didConnect)
  else
    (disconnect s cancelErr closeErr, ToggleAction.didDisconnect)

/-- The reset loop of `window.resetAllServos`:
`for i in 1..numServos: servoAngles[i-1] = 90`. -/
def homeLoop (numServos : Nat) (angles : List Int) : List Int :=
  (List.range numServos).foldl (fun as i => as.set i 90) angles

/-- Helper `window.resetAllServos()`: home every joint, then — only if connected —
invoke `executePosition()` once (wrapped in `try`/`catch`, never rethrown).
`none` in the second component means no send was triggered. -/
def resetAllServos (s : KukaController) (writeOk : Bool) :
    KukaController × Option SendResult :=
  let s1 := { s with servoAngles := homeLoop s.numServos s.servoAngles }
  if s1.connected then
    let r := executePosition s1 writeOk
    (r.1, some r.2)
  else
    (s1, none)

/-- The splitter of `startReading`'s chunk handler:
JavaScript `value.split(/\r?\n/)` — a separator is `\n` optionally preceded
by `\r`; a lone `\r` is not a separator. -/
def splitGo : List Char → List Char → List String
  | [], acc => [String.mk acc.reverse]
  | '\n' :: rest, acc => String.mk acc.reverse :: splitGo rest []
  | '\r' :: '\n' :: rest, acc => String.mk acc.reverse :: splitGo rest []
  | c :: rest, acc => splitGo rest (c :: acc)

/-- Split `value.split(/\r?\n/)` applied to a whole chunk. -/
def splitReLines (cs : List Char) : List String :=
  splitGo cs []

/-- One chunk of the read loop:
`value.split(/\r?\n/).filter(l => l.trim().length)` — the kept lines are
forwarded (verbatim, untrimmed) to `appendSerialLog`. -/
def readChunkLines (value : String) : List String :=
  (splitReLines value.data).filter (fun l => (jsTrim l).length != 0)

/-- The claim's reading of the filter: forward every non-empty line.
Used only to compare against the code's `readChunkLines`. -/
def claimChunkLines (value : String) : List String :=
  (splitReLines value.data).filter (fun l => l != "")

/-- Listener `appendSerialLog(text)`: append `[<timestamp>] <text>\n` to the log. -/
def appendSerialLog (log now text : String) : String :=
  log ++ ("[" ++ now ++ "] " ++ text ++ "\n")

/-- C1: for every angle vector, the command encoder produces exactly
`S1 a1,S2 a2,...,SN aN\n` — one-based joint index, a space before each
angle, comma-separated with no trailing comma, one trailing newline — and
for `[90,90,90,90,90]` it yields exactly
`"S1 90,S2 90,S3 90,S4 90,S5 90\n"`.  Total and deterministic: a plain
function of the angle vector. -/
theorem C1_command_encoder (angles : List Int) :
    encodeCommand angles.length angles = specEncode angles ∧
    encodeCommand 5 [90, 90, 90, 90, 90] = "S1 90,S2 90,S3 90,S4 90,S5 90\n" := by
  constructor
  · unfold encodeCommand specEncode
    rw [commandBody_eq_commaJoin]
  · decide

/-- C2: the numeric-input update succeeds exactly for `0 ≤ v ≤ 180`; on
success the stored angle at the (one-based) joint becomes `v` and nothing
else changes; on failure the whole state is unchanged. -/
theorem C2_updateFromInput (s : KukaController) (j : Nat) (v : Int)
    (hj : j - 1 < s.servoAngles.length) :
    ((updateFromInput s j v).2 = true ↔ 0 ≤ v ∧ v ≤ 180) ∧
    (0 ≤ v → v ≤ 180 →
      (updateFromInput s j v).1
        = { s with servoAngles := s.servoAngles.set (j - 1) v } ∧
      (updateFromInput s j v).1.servoAngles.getD (j - 1) 0 = v) ∧
    (¬(0 ≤ v ∧ v ≤ 180) → updateFromInput s j v = (s, false)) := by
  by_cases h : 0 ≤ v ∧ v ≤ 180
  · refine ⟨by simp [updateFromInput, h], fun h0 h180 => ⟨by simp [updateFromInput, h], ?_⟩,
      fun hc => absurd h hc⟩
    simp only [updateFromInput, if_pos h]
    show (s.servoAngles.set (j - 1) v).getD (j - 1) 0 = v
    rw [List.getD_eq_getElem?_getD, List.getElem?_set_self hj]
    rfl
  · exact ⟨by simp [updateFromInput, h], fun h0 h180 => absurd ⟨h0, h180⟩ h,
      fun _ => by simp [updateFromInput, h]⟩

/-- Witness for C2 at joint 1, value 45, from the initial state. -/
theorem C2_updateFromInput_witness :
    (updateFromInput (initState 5) 1 45).2 = true ↔ (0 : Int) ≤ 45 ∧ (45 : Int) ≤ 180 :=
  (C2_updateFromInput (initState 5) 1 45 (by decide)).1

/-- C9: the constructor yields `n` angles all equal to 90, no transport
handle, `connected = false`, and `lastCommand = "None"`. -/
theorem C9_constructor (n : Nat) :
    (initState n).servoAngles.length = n ∧
    (∀ a ∈ (initState n).servoAngles, a = 90) ∧
    (initState n).port = none ∧
    (initState n).connected = false ∧
    (initState n).lastCommand = "None" := by
  refine ⟨by simp [initState], ?_, rfl, rfl, rfl⟩
  intro a ha
  exact List.eq_of_mem_replicate ha

theorem executePosition_servoAngles (s : KukaController) (w : Bool) :
    (executePosition s w).1.servoAngles = s.servoAngles := by
  unfold executePosition
  repeat' split
  all_goals rfl

theorem executePosition_accept (s : KukaController)
    (hc : s.connected = true) (hp : s.port.isNone = false) (hs : s.sending = false) :
    executePosition s true
      = ({ s with
            sending := true
            lastCommand := jsTrim (encodeCommand s.numServos s.servoAngles) },
         SendResult.sent (encodeCommand s.numServos s.servoAngles)) ∧
    executePosition s false = ({ s with sending := true }, SendResult.writeFailed) := by
  constructor <;> simp [executePosition, hc, hp, hs]

/-- C4: the send gate.  A send while not connected (or with no port) is
rejected with no state change; a send while the `_sending` flag is up —
i.e. while a send is outstanding or its 300 ms cool-down has not elapsed —
is rejected with no state change; an accepted send raises the flag, so an
immediately repeated send is rejected (`busy`): at most one send is ever
outstanding; once the cool-down timer clears the flag a new send goes
through and writes the encoded command. -/
theorem C4_send_gate (s : KukaController) (w w' : Bool) :
    ((!s.connected || s.port.isNone) = true →
      executePosition s w = (s, SendResult.notConnected)) ∧
    (s.connected = true → s.port.isNone = false → s.sending = true →
      executePosition s w = (s, SendResult.busy)) ∧
    (s.connected = true → s.port.isNone = false → s.sending = false →
      (executePosition s w).1.sending = true ∧
      executePosition (executePosition s w).1 w'
        = ((executePosition s w).1, SendResult.busy)) ∧
    (s.connected = true → s.port.isNone = false →
      (sendCooldownExpire s).sending = false ∧
      (executePosition (sendCooldownExpire s) true).2
        = SendResult.sent (encodeCommand s.numServos s.servoAngles)) := by
  refine ⟨?_, ?_, ?_, ?_⟩
  · intro h
    simp [executePosition, h]
  · intro hc hp hs
    simp [executePosition, hc, hp, hs]
  · intro hc hp hs
    cases w <;> simp [executePosition, hc, hp, hs]
  · intro hc hp
    refine ⟨rfl, ?_⟩
    simp [executePosition, sendCooldownExpire, hc, hp]

/-- Witness for C4: from the fresh (disconnected) controller a send is
rejected with no state transition. -/
theorem C4_send_gate_witness :
    executePosition (initState 5) true = (initState 5, SendResult.notConnected) :=
  (C4_send_gate (initState 5) true true).1 (by decide)

/-- C5 counterexample: when `requestPort()` succeeds but `open()` throws,
`connect` surfaces exactly one error, spawns no read task, and stays not
connected — but the state is NOT unchanged: the requested transport handle
stays stored in `this.port` (it was assigned before `open` was awaited and
the `catch` block never clears it). -/
theorem C5_counterexample :
    (connect (initState 5) (ConnectAttempt.openFailed 7)).2
        = { alerts := 1, readLoopStarted := false } ∧
    (connect (initState 5) (ConnectAttempt.openFailed 7)).1.connected = false ∧
    (connect (initState 5) (ConnectAttempt.openFailed 7)).1.port = some 7 ∧
    (connect (initState 5) (ConnectAttempt.openFailed 7)).1 ≠ initState 5 := by
  decide

/-- C5 (amended): every failing `connect` surfaces exactly one error,
spawns no read task, and leaves the session disconnected; when
`requestPort()` itself fails the state is fully unchanged, while when
`open()` fails, the only change is that the requested handle remains
stored in `port`. -/
theorem C5_connect_failure (s : KukaController) (h : Nat)
    (hc : s.connected = false) :
    connect s ConnectAttempt.requestFailed
      = (s, { alerts := 1, readLoopStarted := false }) ∧
    connect s (ConnectAttempt.openFailed h)
      = ({ s with port := some h }, { alerts := 1, readLoopStarted := false }) ∧
    (connect s (ConnectAttempt.openFailed h)).1.connected = false := by
  exact ⟨rfl, rfl, hc⟩

/-- Witness for C5: open failure from the fresh controller. -/
theorem C5_connect_failure_witness :
    connect (initState 5) (ConnectAttempt.openFailed 7)
      = ({ initState 5 with port := some 7 },
         { alerts := 1, readLoopStarted := false }) :=
  (C5_connect_failure (initState 5) 7 rfl).2.1

/-- C7 counterexample: `disconnect()` on an already-disconnected controller
is NOT a no-op — the trailing statements run unconditionally and overwrite
`lastCommand` with `'Disconnected'`. -/
theorem C7_counterexample :
    disconnect (initState 5) false false ≠ initState 5 ∧
    (disconnect (initState 5) false false).lastCommand = "Disconnected" ∧
    (initState 5).lastCommand = "None" := by
  decide

/-- C7 (amended): `disconnect` always ends disconnected with the handle
cleared, whatever teardown errors occur (they are swallowed; the result
does not depend on them and nothing is thrown); called when already
disconnected it does not throw and changes nothing except setting
`lastCommand` to `'Disconnected'`; `toggleConnection` dispatches to
`disconnect` when connected, so `connect()` is never invoked while
connected. -/
theorem C7_disconnect (s : KukaController) (cancelErr closeErr : Bool)
    (attempt : ConnectAttempt) :
    disconnect s cancelErr closeErr
      = { s with
            port := none
            connected := false
            lastCommand := "Disconnected" } ∧
    (s.port = none → s.connected = false →
      disconnect s cancelErr closeErr = { s with lastCommand := "Disconnected" }) ∧
    (s.connected = true →
      toggleConnection s attempt cancelErr closeErr
        = (disconnect s cancelErr closeErr, ToggleAction.didDisconnect)) ∧
    (s.connected = false →
      (toggleConnection s attempt cancelErr closeErr).2 = ToggleAction.didConnect) := by
  refine ⟨rfl, ?_, ?_, ?_⟩
  · intro hp hc
    cases s
    simp_all [disconnect]
  · intro hc
    simp [toggleConnection, hc]
  · intro hc
    simp [toggleConnection, hc]

/-- Witness for C7: disconnecting the fresh (already disconnected)
controller only rewrites `lastCommand`. -/
theorem C7_disconnect_witness :
    disconnect (initState 5) false false
      = { initState 5 with lastCommand := "Disconnected" } :=
  (C7_disconnect (initState 5) false false ConnectAttempt.requestFailed).2.1 rfl rfl

theorem homeLoop_le (a : List Int) :
    ∀ n, n ≤ a.length → homeLoop n a = List.replicate n 90 ++ a.drop n := by
  intro n
  induction n with
  | zero =>
    intro _
    simp [homeLoop]
  | succ m ih =>
    intro hle
    have hm : m ≤ a.length := by omega
    have hml : m < a.length := by omega
    have step : homeLoop (m + 1) a = (homeLoop m a).set m 90 := by
      unfold homeLoop
      rw [List.range_succ, List.foldl_append, List.foldl_cons, List.foldl_nil]
    rw [step, ih hm, List.set_append]
    have hrl : (List.replicate m (90 : Int)).length = m := List.length_replicate m 90
    rw [hrl]
    have hcond : ¬ m < m := by omega
    rw [if_neg hcond, Nat.sub_self, List.drop_eq_getElem_cons hml,
      List.set_cons_zero, List.replicate_succ']
    simp

theorem homeLoop_eq_replicate (a : List Int) (n : Nat) (h : a.length = n) :
    homeLoop n a = List.replicate n 90 := by
  rw [homeLoop_le a n (by omega), ← h, List.drop_length, List.append_nil]

/-- C8: `resetAllServos` unconditionally homes every joint to 90; exactly
when connected it triggers exactly one `executePosition` of the homed
vector; a write failure there is reported as a send failure, never thrown
(the call is total and returns `writeFailed`). -/
theorem C8_resetAll (s : KukaController) (w : Bool)
    (hlen : s.servoAngles.length = s.numServos) :
    (resetAllServos s w).1.servoAngles = List.replicate s.numServos 90 ∧
    ((resetAllServos s w).2.isSome ↔ s.connected = true) ∧
    (s.connected = false →
      resetAllServos s w
        = ({ s with servoAngles := List.replicate s.numServos 90 }, none)) ∧
    (s.connected = true → s.port.isNone = false → s.sending = false →
      (resetAllServos s true).2
          = some (SendResult.sent
              (encodeCommand s.numServos (List.replicate s.numServos 90))) ∧
      (resetAllServos s false).2 = some SendResult.writeFailed) := by
  have hh : homeLoop s.numServos s.servoAngles = List.replicate s.numServos 90 :=
    homeLoop_eq_replicate s.servoAngles s.numServos hlen
  by_cases hc : s.connected = true
  · refine ⟨?_, ?_, fun hfc => absurd hc (by simp [hfc]), fun _ hp hs => ⟨?_, ?_⟩⟩
    · simp only [resetAllServos, hh, hc, if_pos]
      rw [executePosition_servoAngles]
    · simp [resetAllServos, hc, hh]
    · simp [resetAllServos, hc, hh, executePosition, hp, hs]
    · simp [resetAllServos, hc, hh, executePosition, hp, hs]
  · have hcf : s.connected = false := by
      cases h : s.connected
      · rfl
      · exact absurd h hc
    refine ⟨?_, ?_, fun _ => ?_, fun ht => absurd ht hc⟩
    · simp [resetAllServos, hh, hcf]
    · simp [resetAllServos, hcf, hh]
    · simp [resetAllServos, hcf, hh]

/-- Witness for C8 on a connected controller with a held port. -/
theorem C8_resetAll_witness :
    (resetAllServos
        { initState 5 with
            connected := true
            port := some 1
            servoAngles := [0, 10, 20, 30, 40] } true).2
      = some (SendResult.sent (encodeCommand 5 (List.replicate 5 90))) :=
  ((C8_resetAll
      { initState 5 with
          connected := true
          port := some 1
          servoAngles := [0, 10, 20, 30, 40] } true (by decide)).2.2.2
    rfl rfl rfl).1

/-- The UI events that can mutate controller state, with the environment
inputs each handler consumes. -/
inductive Event where
  | sliderInput (servoNum : Nat) (value : Int)
  | numberInput (servoNum : Nat) (value : Int)
  | resetClick (writeOk : Bool)
  | sendClick (writeOk : Bool)
  | connectClick (attempt : ConnectAttempt)
  | disconnectClick (cancelErr closeErr : Bool)
  | cooldownTimer
  deriving Repr, DecidableEq

/-- Dispatch of one event to the handler wired in `attachServoListeners`,
`setupEventListeners` and the page helpers. -/
def step (s : KukaController) : Event → KukaController
  | Event.sliderInput j v => updateFromSlider s j v
  | Event.numberInput j v => (updateFromInput s j v).1
  | Event.resetClick w => (resetAllServos s w).1
  | Event.sendClick w => (executePosition s w).1
  | Event.connectClick att => (connect s att).1
  | Event.disconnectClick e1 e2 => disconnect s e1 e2
  | Event.cooldownTimer => sendCooldownExpire s

/-- DOM-side constraint: a slider `input` event always carries a value the
range element clamps into [0,180] (`min="0" max="180"` in
`createServoCard`); every other event is unconstrained. -/
def validEvent : Event → Bool
  | Event.sliderInput _ v => decide (0 ≤ v) && decide (v ≤ 180)
  | _ => true

/-- Every joint angle is within [0, 180]. -/
def anglesOK (s : KukaController) : Bool :=
  s.servoAngles.all (fun a => decide (0 ≤ a) && decide (a ≤ 180))

/-- A run of the controller: a fold of `step` over an event list. -/
def run (s : KukaController) (es : List Event) : KukaController :=
  es.foldl step s

theorem anglesOK_iff (s : KukaController) :
    anglesOK s = true ↔ ∀ a ∈ s.servoAngles, 0 ≤ a ∧ a ≤ 180 := by
  unfold anglesOK
  rw [List.all_eq_true]
  constructor
  · intro h a ha
    have h2 := h a ha
    simpa using h2
  · intro h a ha
    simpa using h a ha

theorem mem_foldl_set (l : List Nat) :
    ∀ (as : List Int) (a : Int),
      a ∈ l.foldl (fun acc i => acc.set i 90) as → a = 90 ∨ a ∈ as := by
  induction l with
  | nil =>
    intro as a ha
    exact Or.inr ha
  | cons i is ih =>
    intro as a ha
    rcases ih (as.set i 90) a ha with h | h
    · exact Or.inl h
    · rcases List.mem_or_eq_of_mem_set h with h2 | h2
      · exact Or.inr h2
      · exact Or.inl h2

theorem resetAll_servoAngles (s : KukaController) (w : Bool) :
    (resetAllServos s w).1.servoAngles = homeLoop s.numServos s.servoAngles := by
  by_cases hc : s.connected = true
  · simp [resetAllServos, hc, executePosition_servoAngles]
  · simp [resetAllServos, hc]

theorem connect_servoAngles (s : KukaController) (att : ConnectAttempt) :
    (connect s att).1.servoAngles = s.servoAngles := by
  cases att <;> rfl

theorem step_preserves_anglesOK (s : KukaController) (e : Event)
    (hs : anglesOK s = true) (he : validEvent e = true) :
    anglesOK (step s e) = true := by
  rw [anglesOK_iff] at hs ⊢
  cases e with
  | sliderInput j v =>
    simp only [validEvent, Bool.and_eq_true, decide_eq_true_eq] at he
    intro a ha
    simp only [step, updateFromSlider] at ha
    rcases List.mem_or_eq_of_mem_set ha with h | h
    · exact hs a h
    · rw [h]
      exact he
  | numberInput j v =>
    intro a ha
    simp only [step, updateFromInput] at ha
    by_cases hv : 0 ≤ v ∧ v ≤ 180
    · rw [if_pos hv] at ha
      rcases List.mem_or_eq_of_mem_set ha with h | h
      · exact hs a h
      · rw [h]
        exact hv
    · rw [if_neg hv] at ha
      exact hs a ha
  | resetClick w =>
    intro a ha
    simp only [step] at ha
    rw [resetAll_servoAngles] at ha
    rcases mem_foldl_set (List.range s.numServos) s.servoAngles a ha with h | h
    · rw [h]
      exact ⟨by omega, by omega⟩
    · exact hs a h
  | sendClick w =>
    intro a ha
    simp only [step] at ha
    rw [executePosition_servoAngles] at ha
    exact hs a ha
  | connectClick att =>
    intro a ha
    simp only [step] at ha
    rw [connect_servoAngles] at ha
    exact hs a ha
  | disconnectClick e1 e2 =>
    intro a ha
    exact hs a ha
  | cooldownTimer =>
    intro a ha
    exact hs a ha

theorem run_preserves_anglesOK (es : List Event) :
    ∀ s, anglesOK s = true → (∀ e ∈ es, validEvent e = true) →
      anglesOK (run s es) = true := by
  induction es with
  | nil =>
    intro s hs _
    exact hs
  | cons e es ih =>
    intro s hs hv
    exact ih (step s e)
      (step_preserves_anglesOK s e hs (hv e (List.mem_cons_self e es)))
      (fun e' he' => hv e' (List.mem_cons_of_mem e he'))

/-- C3 counterexample: the slider handler stores `parseInt(slider.value)`
with no range check, so fed an out-of-range value it neither rejects it
nor retains the prior value — the in-range invariant survives only because
the DOM range element clamps slider values. -/
theorem C3_counterexample :
    anglesOK (updateFromSlider (initState 5) 1 181) = false ∧
    (updateFromSlider (initState 5) 1 181).servoAngles
      ≠ (initState 5).servoAngles := by
  decide

/-- C3 (amended): the initial state satisfies the [0,180] invariant, and
every mutating operation preserves it — the numeric-input update by
rejecting out-of-range values and retaining the prior value, the slider
update only under the DOM clamp on its value, and reset/send/connect/
disconnect/timer unconditionally — so every state reachable under
DOM-valid events keeps all angles in [0,180]. -/
theorem C3_angle_invariant (n : Nat) (s : KukaController) (e : Event)
    (es : List Event) (hs : anglesOK s = true) (he : validEvent e = true)
    (hes : ∀ e' ∈ es, validEvent e' = true) :
    anglesOK (initState n) = true ∧
    anglesOK (step s e) = true ∧
    anglesOK (run (initState n) es) = true := by
  have hinit : anglesOK (initState n) = true := by
    rw [anglesOK_iff]
    intro a ha
    have := List.eq_of_mem_replicate ha
    rw [this]
    exact ⟨by omega, by omega⟩
  exact ⟨hinit, step_preserves_anglesOK s e hs he,
    run_preserves_anglesOK es (initState n) hinit hes⟩

/-- Witness for C3 on a small mixed event run. -/
theorem C3_angle_invariant_witness :
    anglesOK (run (initState 5)
      [Event.sliderInput 1 0, Event.numberInput 2 200, Event.resetClick true]) = true :=
  (C3_angle_invariant 5 (initState 5) Event.cooldownTimer
    [Event.sliderInput 1 0, Event.numberInput 2 200, Event.resetClick true]
    (by decide) (by decide) (by decide)).2.2

theorem splitGo_no_newline (cs acc : List Char) :
    '\n' ∉ acc → ∀ l ∈ splitGo cs acc, '\n' ∉ l.data := by
  induction cs, acc using splitGo.induct with
  | case1 acc =>
    intro hacc l hl
    rw [splitGo.eq_1] at hl
    rw [List.mem_singleton.mp hl]
    intro hcontra
    exact hacc (List.mem_reverse.mp hcontra)
  | case2 rest acc ih =>
    intro hacc l hl
    rw [splitGo.eq_2] at hl
    rcases List.mem_cons.mp hl with h | h
    · rw [h]
      intro hcontra
      exact hacc (List.mem_reverse.mp hcontra)
    · exact ih (by simp) l h
  | case3 rest acc ih =>
    intro hacc l hl
    rw [splitGo.eq_3] at hl
    rcases List.mem_cons.mp hl with h | h
    · rw [h]
      intro hcontra
      exact hacc (List.mem_reverse.mp hcontra)
    · exact ih (by simp) l h
  | case4 c rest acc h1 h2 ih =>
    intro hacc l hl
    rw [splitGo.eq_4 _ _ _ h1 h2] at hl
    refine ih ?_ l hl
    intro hc
    rcases List.mem_cons.mp hc with h | h
    · exact h1 h.symm
    · exact hacc h

theorem splitReLines_no_newline (value : String) :
    ∀ l ∈ splitReLines value.data, '\n' ∉ l.data :=
  splitGo_no_newline value.data [] (by simp)

/-- C6 counterexample: the read loop's filter is `l.trim().length`, so a
whitespace-only — hence non-empty — line is discarded, contradicting
"forwards each remaining non-empty line": on the chunk `" \nOK\n"` the
code forwards only `"OK"`, while the claim's reading forwards `" "` too. -/
theorem C6_counterexample :
    readChunkLines " \nOK\n" ≠ claimChunkLines " \nOK\n" ∧
    readChunkLines " \nOK\n" = ["OK"] ∧
    claimChunkLines " \nOK\n" = [" ", "OK"] := by
  decide

/-- C6 (amended): each chunk is split on `\n` or `\r\n`; lines that are
blank after trimming are discarded and every other line is forwarded (no
forwarded line contains a newline); the chunk `"HELLO\r\nOK\n"` yields
exactly the two listener calls `"HELLO"` and `"OK"`, appended to the log
tagged with the capture timestamp, and no call for the trailing
delimiter. -/
theorem C6_read_loop (value l log now : String) :
    readChunkLines "HELLO\r\nOK\n" = ["HELLO", "OK"] ∧
    (l ∈ readChunkLines value →
      (jsTrim l).length ≠ 0 ∧ '\n' ∉ l.data ∧ l ∈ splitReLines value.data) ∧
    (l ∈ splitReLines value.data → (jsTrim l).length ≠ 0 →
      l ∈ readChunkLines value) ∧
    (readChunkLines "HELLO\r\nOK\n").foldl (fun lg txt => appendSerialLog lg now txt) log
      = log ++ ("[" ++ now ++ "] HELLO\n") ++ ("[" ++ now ++ "] OK\n") := by
  have hconc : readChunkLines "HELLO\r\nOK\n" = ["HELLO", "OK"] := by decide
  refine ⟨hconc, ?_, ?_, ?_⟩
  · intro hl
    rcases List.mem_filter.mp hl with ⟨hmem, hkeep⟩
    exact ⟨bne_iff_ne.mp hkeep, splitReLines_no_newline value l hmem, hmem⟩
  · intro hmem hne
    exact List.mem_filter.mpr ⟨hmem, bne_iff_ne.mpr hne⟩
  · rw [hconc]
    simp only [List.foldl_cons, List.foldl_nil, appendSerialLog, String.append_assoc]
    rfl

/-- Witness for C6 at the chunk `"HELLO\r\nOK\n"` and line `"HELLO"`. -/
theorem C6_read_loop_witness :
    "HELLO" ∈ readChunkLines "HELLO\r\nOK\n" :=
  (C6_read_loop "HELLO\r\nOK\n" "HELLO" "" "t").2.2.1 (by decide) (by decide)

theorem headD_append_of_ne_nil (l1 l2 : List Char) (d : Char) (h : l1 ≠ []) :
    (l1 ++ l2).headD d = l1.headD d := by
  cases l1 with
  | nil => exact absurd rfl h
  | cons c cs => rfl

/-- JavaScript `trim` of a string with a non-whitespace first character and
a trailing `"\n"` after a non-whitespace last character just removes that
newline. -/
theorem jsTrim_append_newline (x : String)
    (h1 : isWs (x.data.headD '\n') = false)
    (h2 : isWs (x.data.reverse.headD '\n') = false) :
    jsTrim (x ++ "\n") = x := by
  have hx : x.data ≠ [] := by
    intro hnil
    rw [hnil] at h1
    exact absurd h1 (by decide)
  obtain ⟨c, cs, hcs⟩ : ∃ c cs, x.data = c :: cs := by
    cases hde : x.data with
    | nil => exact absurd hde hx
    | cons c cs => exact ⟨c, cs, rfl⟩
  have hc : isWs c = false := by
    rw [hcs] at h1
    exact h1
  obtain ⟨d, ds, hds⟩ : ∃ d ds, x.data.reverse = d :: ds := by
    cases hde : x.data.reverse with
    | nil => exact absurd (List.reverse_eq_nil_iff.mp hde) hx
    | cons d ds => exact ⟨d, ds, rfl⟩
  have hd : isWs d = false := by
    rw [hds] at h2
    exact h2
  unfold jsTrim
  rw [String.data_append]
  have e0 : ("\n" : String).data = ['\n'] := rfl
  rw [e0, hcs, List.cons_append, List.dropWhile_cons, hc,
    if_neg (by simp)]
  have e1 : (c :: (cs ++ ['\n'])).reverse = '\n' :: (c :: cs).reverse := by
    rw [← List.cons_append, List.reverse_append]
    rfl
  rw [e1, List.dropWhile_cons, if_pos (by decide), ← hcs, hds,
    List.dropWhile_cons, hd, if_neg (by simp), ← hds, List.reverse_reverse]

set_option maxRecDepth 4000 in
/-- The decimal rendering of every angle value in [0, 180] is non-empty and
ends in a digit (in particular not whitespace). -/
theorem toString_nonneg_last (m : Nat) (hm : m < 181) :
    isWs ((toString (Int.ofNat m)).data.reverse.headD '\n') = false ∧
    (toString (Int.ofNat m)).data ≠ [] := by
  revert m
  decide

theorem commaJoin_cons_eq (p : String) (ps : List String) :
    ∃ t : String, commaJoin (p :: ps) = p ++ t := by
  cases ps with
  | nil => exact ⟨"", (String.append_empty p).symm⟩
  | cons q qs =>
    refine ⟨"," ++ commaJoin (q :: qs), ?_⟩
    rw [commaJoin, String.append_assoc]

theorem commandBody_headD (y : Int) (ys : List Int) :
    ((commandBody (y :: ys).length (y :: ys)).data).headD '\n' = 'S' := by
  rw [commandBody_eq_commaJoin]
  obtain ⟨t, ht⟩ :=
    commaJoin_cons_eq ("S" ++ toString 1 ++ " " ++ toString y) (specCommandParts 2 ys)
  have e1 : specCommandParts 1 (y :: ys)
      = ("S" ++ toString 1 ++ " " ++ toString y) :: specCommandParts 2 ys := rfl
  rw [e1, ht]
  simp only [String.append_assoc]
  rw [String.data_append]
  rfl

theorem commandBody_lastD (a : List Int) (m : Nat)
    (htl : (toString (a.getD m 0)).data ≠ []) :
    (commandBody (m + 1) a).data.reverse.headD '\n'
      = (toString (a.getD m 0)).data.reverse.headD '\n' := by
  rw [commandBody_succ, String.data_append, List.reverse_append]
  unfold servoPart
  rw [String.data_append, List.reverse_append, List.append_assoc]
  rw [headD_append_of_ne_nil _ _ _ (by simpa using htl)]

/-- Trimming the encoded command removes exactly the trailing newline
whenever there is at least one joint and all angles are in range. -/
theorem jsTrim_encodeCommand (a : List Int)
    (hn : 1 ≤ a.length) (hrange : ∀ v ∈ a, 0 ≤ v ∧ v ≤ 180) :
    jsTrim (encodeCommand a.length a) ++ "\n" = encodeCommand a.length a := by
  obtain ⟨m, hm⟩ : ∃ m, a.length = m + 1 := ⟨a.length - 1, by omega⟩
  have hmlt : m < a.length := by omega
  have hmem : a.getD m 0 ∈ a := by
    rw [List.getD_eq_getElem?_getD, List.getElem?_eq_getElem hmlt, Option.getD_some]
    exact List.getElem_mem hmlt
  have hr := hrange _ hmem
  have hnn : Int.ofNat (a.getD m 0).toNat = a.getD m 0 := Int.toNat_of_nonneg hr.1
  have hlt : (a.getD m 0).toNat < 181 := by omega
  have hdig := toString_nonneg_last (a.getD m 0).toNat hlt
  rw [hnn] at hdig
  obtain ⟨y, ys, hys⟩ : ∃ y ys, a = y :: ys := by
    cases a with
    | nil => simp at hn
    | cons y ys => exact ⟨y, ys, rfl⟩
  have h1 : isWs ((commandBody a.length a).data.headD '\n') = false := by
    rw [hys, commandBody_headD y ys]
    decide
  have h2 : isWs ((commandBody a.length a).data.reverse.headD '\n') = false := by
    rw [hm, commandBody_lastD a m hdig.2]
    exact hdig.1
  unfold encodeCommand
  rw [jsTrim_append_newline (commandBody a.length a) h1 h2]

/-- C10 counterexample: an accepted send mutates more than `lastCommand` —
it raises the `_sending` busy flag (cleared only by the 300 ms cool-down
timer). -/
theorem C10_counterexample :
    (executePosition
        { initState 5 with connected := true, port := some 1 } true).1.sending = true ∧
    ({ initState 5 with connected := true, port := some 1 } : KukaController).sending
      = false := by
  decide

/-- C10 (amended): after a send whose write resolves, `lastCommand` is the
encoded command with the trailing newline removed; when the write throws,
`lastCommand` and the angle vector (and everything else) are unchanged;
in both cases the only other mutation of the send path is raising the
`_sending` busy flag. -/
theorem C10_send_path (s : KukaController) (hc : s.connected = true)
    (hp : s.port.isNone = false) (hs : s.sending = false)
    (hlen : s.servoAngles.length = s.numServos) (hn : 1 ≤ s.numServos)
    (hrange : ∀ v ∈ s.servoAngles, 0 ≤ v ∧ v ≤ 180) :
    (executePosition s true).1.lastCommand ++ "\n"
      = encodeCommand s.numServos s.servoAngles ∧
    (executePosition s true).1
      = { s with
            sending := true
            lastCommand := (executePosition s true).1.lastCommand } ∧
    (executePosition s false).1 = { s with sending := true } := by
  have hacc := executePosition_accept s hc hp hs
  have hlen' : 1 ≤ s.servoAngles.length := by omega
  have htrim := jsTrim_encodeCommand s.servoAngles hlen' hrange
  rw [hlen] at htrim
  refine ⟨?_, ?_, ?_⟩
  · rw [hacc.1]
    exact htrim
  · rw [hacc.1]
  · rw [hacc.2]

/-- Witness for C10 on a connected home-position controller. -/
theorem C10_send_path_witness :
    (executePosition
        { initState 5 with connected := true, port := some 1 } true).1.lastCommand ++ "\n"
      = encodeCommand 5 (List.replicate 5 90) :=
  (C10_send_path { initState 5 with connected := true, port := some 1 }
    rfl rfl rfl (by decide) (by decide) (by decide)).1
